import Mathlib

/-!
ADSMedia Mattermost plugin: the slash command /email

A shallow embedding of `plugins/mattermost/mattermost-plugin-adsmedia/server/plugin.go`.

* Go strings are Lean strings. The text handled here is UTF-8, in which the byte 0x20 occurs
  only as the character U+0020, so splitting at the byte is splitting at the character.
* A Go `error` is represented by the text its `Error()` method returns.
* A pointer result that may be nil is an `Option`.
* The network and the JSON decoder are parameters (`Net`); every request handed to the HTTP
  client is recorded in the `calls` field of the result, in order.
* Line 71 of the source selects `result.MessageID`, which `SendResult` does not have; the
  value of that operand is a parameter of `ExecuteCommand` (see there).
* The standard-library functions the source calls (`strings.SplitN`, `fmt.Errorf`,
  `http.Header.Set`) are embedded from their Go definitions. `fmt.Sprintf` is called only
  with a constant format whose verbs are `%s` and with string operands, which is the
  concatenation of the literal pieces and the operands.
-/

namespace ADSMedia

/-! ## strings.SplitN -/

/-- The first occurrence of `sep` in `s`, as the pair `(s[:m], s[m+1:])` that
`strings.Index` and the two slicings of `genSplit` produce; `none` when `sep` does not occur. -/
def cut (sep : Char) : List Char → Option (List Char × List Char)
  | [] => none
  | c :: cs =>
    if c = sep then some ([], cs)
    else match cut sep cs with
      | none => none
      | some (a, rest) => some (c :: a, rest)

/-- The loop of `strings.genSplit` for a one-character separator: at most `n - 1` cuts, the
last element is the unsplit remainder; `n = 0` gives no element at all. -/
def splitN (sep : Char) : Nat → List Char → List (List Char)
  | 0, _ => []
  | 1, s => [s]
  | n + 2, s =>
    match cut sep s with
    | none => [s]
    | some (a, rest) => a :: splitN sep (n + 1) rest

/-- The Go call `strings.SplitN(s, sep, n)` for a one-character separator and `n ≥ 0`. -/
def SplitN (s : String) (sep : Char) (n : Nat) : List String :=
  (splitN sep n s.data).map String.mk

/-- The Go call `strings.Split(s, sep)`, that is `SplitN` with no limit: a string of length
`len` has at most `len + 1` segments. -/
def Split (s : String) (sep : Char) : List String :=
  SplitN s sep (s.data.length + 1)

/-! ## fmt.Errorf with a format and no operands

`sendEmail` calls `fmt.Errorf(result.Error.Message)`: the decoded message is the FORMAT and
there is no operand. The definitions below follow `doPrintf` of package `fmt` for an empty
operand list (`len(a) = 0`), where flags, width and precision have no effect on the output
other than the diagnostics written for `*`, and every verb other than `%%` reports a missing
operand or a bad index. -/

/-- Go `tooLarge`: the bound on widths, precisions and operand indexes. -/
def tooLarge (x : Nat) : Bool := decide (x > 1000000)

/-- Go `parsenum(s, start, end)` on the text `s[start:end]`: the number read, whether one was
read, and the text left. When the number overflows the whole text is consumed. -/
def parsenumLoop : List Char → Nat → Bool → Nat × Bool × List Char
  | [], num, isnum => (num, isnum, [])
  | c :: cs, num, isnum =>
    if c.isDigit then
      if tooLarge num then (0, false, [])
      else parsenumLoop cs (num * 10 + (c.toNat - 48)) true
    else (num, isnum, c :: cs)

/-- Go `parsenum`, see `parsenumLoop`. -/
def parsenum (s : List Char) : Nat × Bool × List Char :=
  match s with
  | [] => (0, false, [])
  | _ => parsenumLoop s 0 false

/-- The length in bytes of the UTF-8 encoding, Go `len` of a string. -/
def byteLen (s : List Char) : Nat := (s.map Char.utf8Size).sum

/-- Go `parseArgNumber(format)` for `format` starting with `[`: whether a well-formed index
`[n]` was read, and the text left (`format[wid:]`). -/
def parseArgNumber (format : List Char) : Bool × List Char :=
  if byteLen format < 3 then (false, format.tail)
  else
    match cut ']' format.tail with
    | none => (false, format.tail)
    | some (inner, rest) =>
      let r := parsenum inner
      if !r.2.1 || !r.2.2.isEmpty then (false, rest) else (true, rest)

/-- Go `(*pp).argNumber` with `numArgs = 0`: the text left, `found`, and the new value of
`goodArgNum`. With no operand an index is never in range, so a bracket always clears
`goodArgNum`. -/
def argNumber (format : List Char) (goodArgNum : Bool) : List Char × Bool × Bool :=
  match format with
  | '[' :: _ =>
    let r := parseArgNumber format
    (r.2, r.1, false)
  | _ => (format, false, goodArgNum)

/-- The flag characters skipped by the `simpleFormat` loop of `doPrintf`. -/
def isFlag (c : Char) : Bool :=
  c == '#' || c == '0' || c == '+' || c == '-' || c == ' '

/-- One pass of the `formatLoop` body of `doPrintf` after the `%` has been consumed, with no
operand: the text written to the buffer and the format text left. -/
def doVerb (afterPercent : List Char) : List Char × List Char :=
  let s0 := afterPercent.dropWhile isFlag
  -- explicit argument index
  let a1 := argNumber s0 true
  let s1 := a1.1
  let afterIndex1 := a1.2.1
  let good1 := a1.2.2
  -- width
  let w : List Char × List Char × Bool × Bool :=
    match s1 with
    | '*' :: t => ("%!(BADWIDTH)".data, t, false, good1)
    | _ =>
      let r := parsenum s1
      ([], r.2.2, afterIndex1, if afterIndex1 && r.2.1 then false else good1)
  let out2 := w.1
  let s2 := w.2.1
  let afterIndex2 := w.2.2.1
  let good2 := w.2.2.2
  -- precision: Go tests i+1 < end, so a dot that ends the format is not a precision
  let pr : List Char × List Char × Bool × Bool :=
    match s2 with
    | '.' :: c :: t0 =>
      let t := c :: t0
      let good := if afterIndex2 then false else good2
      let a := argNumber t good
      match a.1 with
      | '*' :: t2 => ("%!(BADPREC)".data, t2, false, a.2.2)
      | _ => ([], (parsenum a.1).2.2, a.2.1, a.2.2)
    | _ => ([], s2, afterIndex2, good2)
  let out3 := out2 ++ pr.1
  let s3 := pr.2.1
  let afterIndex3 := pr.2.2.1
  let good3 := pr.2.2.2
  let a4 := if !afterIndex3 then argNumber s3 good3 else (s3, afterIndex3, good3)
  match a4.1 with
  | [] => (out3 ++ "%!(NOVERB)".data, [])
  | verb :: rest =>
    if verb = '%' then (out3 ++ ['%'], rest)
    else if !a4.2.2 then (out3 ++ "%!".data ++ [verb] ++ "(BADINDEX)".data, rest)
    else (out3 ++ "%!".data ++ [verb] ++ "(MISSING)".data, rest)

/-- The `formatLoop` of `doPrintf` with no operand; `fuel` bounds the number of passes, each
of which consumes at least the `%` it starts from. -/
def doPrintf : Nat → List Char → List Char → List Char
  | 0, _, buf => buf
  | fuel + 1, format, buf =>
    let buf1 := buf ++ format.takeWhile (fun c => c != '%')
    match format.dropWhile (fun c => c != '%') with
    | [] => buf1
    | _ :: afterPercent =>
      let r := doVerb afterPercent
      doPrintf fuel r.2 (buf1 ++ r.1)

/-- The text of the error built by `fmt.Errorf(format)`, called with no operand. -/
def Errorf (format : String) : String :=
  String.mk (doPrintf (format.data.length + 1) format.data [])

/-! ## Data model -/

/-- The constant `apiBaseURL`. -/
def apiBaseURL : String := "https://api.adsmedia.live/v1"

/-- The struct `configuration`. -/
structure configuration where
  ApiKey : String
  DefaultFromName : String
  deriving DecidableEq, Repr

/-- The struct `Plugin`: `configurationLock` is seen sequentially as the number of read locks
held, `configuration` is the pointer, `none` for nil. -/
structure Plugin where
  configurationLock : Nat
  configuration : Option ADSMedia.configuration
  deriving DecidableEq, Repr

/-- The field of `model.CommandArgs` the plugin reads. -/
structure CommandArgs where
  Command : String
  deriving DecidableEq, Repr

/-- The fields of `model.CommandResponse` the plugin sets. -/
structure CommandResponse where
  ResponseType : String
  Text : String
  deriving DecidableEq, Repr

/-- The two response types of the host: `model.CommandResponseTypeEphemeral`. -/
def CommandResponseTypeEphemeral : String := "ephemeral"

/-- The two response types of the host: `model.CommandResponseTypeInChannel`. -/
def CommandResponseTypeInChannel : String := "in_channel"

/-- The host type `model.AppError`, by its message. -/
structure AppError where
  Message : String
  deriving DecidableEq, Repr

/-- The anonymous struct of `SendResult.Data`. -/
structure SendResultData where
  MessageID : String
  deriving DecidableEq, Repr

/-- The anonymous struct of `SendResult.Error`. -/
structure SendResultError where
  Message : String
  deriving DecidableEq, Repr

/-- The struct `SendResult`. -/
structure SendResult where
  Success : Bool
  Data : SendResultData
  Error : SendResultError
  deriving DecidableEq, Repr

/-- An outgoing HTTP request: `Payload` is the map that `json.Marshal` turns into the body,
its entries in the order of the map literal. -/
structure Request where
  Method : String
  URL : String
  Header : List (String × String)
  Payload : List (String × String)
  deriving DecidableEq, Repr

/-- Go `validHeaderFieldByte`: the token characters of RFC 7230, which are the ASCII letters
and digits and the fifteen marks ! # $ % & ' * + - . ^ _ (grave accent) | ~ , given here by
their codes. -/
def validHeaderFieldByte (c : Char) : Bool :=
  c.isAlphanum || [33, 35, 36, 37, 38, 39, 42, 43, 45, 46, 94, 95, 96, 124, 126].contains c.toNat

/-- The letter-case loop of Go `canonicalMIMEHeaderKey`: upper case for the first letter and
for a letter after a dash, lower case elsewhere. -/
def canonicalLoop : Bool → List Char → List Char
  | _, [] => []
  | upper, c :: cs =>
    let c1 := if upper && c.isLower then c.toUpper
              else if !upper && c.isUpper then c.toLower
              else c
    c1 :: canonicalLoop (c1 == '-') cs

/-- Go `textproto.CanonicalMIMEHeaderKey`: a key with a character that is not a token
character (a space included) is returned unchanged, any other key is put in canonical case. -/
def CanonicalMIMEHeaderKey (key : String) : String :=
  if key.data.all validHeaderFieldByte then String.mk (canonicalLoop true key.data) else key

/-- The Go method `http.Header.Set`: the value stored under the canonical form of `key` is
replaced. -/
def HeaderSet (h : List (String × String)) (key value : String) : List (String × String) :=
  h.filter (fun kv => kv.1 != CanonicalMIMEHeaderKey key) ++ [(CanonicalMIMEHeaderKey key, value)]

/-- The world outside the plugin. `Do req` is `client.Do(req)` followed by
`io.ReadAll(resp.Body)`: the text of the transport error, or the response body.
`Unmarshal body` is `json.Unmarshal(body, &result)` on a zero `SendResult`: the text of the
decoding error, or the decoded value. -/
structure Net where
  Do : Request → Except String String
  Unmarshal : String → Except String SendResult

/-- What a call of `sendEmail` does: the requests handed to the HTTP client, and the pair
`(*SendResult, error)` it returns. -/
structure SendOutcome where
  calls : List Request
  result : Except String SendResult

/-- What a call of `ExecuteCommand` does: the two results, the requests handed to the HTTP
client, and the plugin state afterwards. -/
structure ExecOutcome where
  response : Option CommandResponse
  appErr : Option AppError
  calls : List Request
  plugin : Plugin

/-- A field of a struct declaration: its name, whether it is embedded (declared without a
name), and the names of the fields of its own type when that is a struct. -/
structure FieldDecl where
  name : String
  embedded : Bool
  inner : List String
  deriving DecidableEq, Repr

/-- The declaration of the struct `SendResult` (lines 75 to 83): three named fields, two of
them of an anonymous struct type. -/
def SendResultFields : List FieldDecl :=
  [{ name := "Success", embedded := false, inner := [] },
   { name := "Data", embedded := false, inner := ["MessageID"] },
   { name := "Error", embedded := false, inner := ["Message"] }]

/-- The Go rule for a selector `x.f` on a struct value, for declarations nested one level as
here: `f` is a field of the struct, or a field promoted from an embedded field. -/
def hasSelector (fields : List FieldDecl) (f : String) : Bool :=
  fields.any (fun d => d.name == f) || fields.any (fun d => d.embedded && d.inner.contains f)

/-- The Go rule for a selector path `x.g.f`: `g` is a field of the struct and `f` a field of
the type of `g`. -/
def hasSelectorPath (fields : List FieldDecl) (g f : String) : Bool :=
  fields.any (fun d => d.name == g && d.inner.contains f)

/-- An operand value that ignores the decoded result. -/
def noMessageID : SendResult → String := fun _ => ""

/-! ## The plugin -/

/-- The method `Plugin.getConfiguration`: the configuration read, and the plugin afterwards
(the read lock taken, and released by the deferred `RUnlock`). -/
def getConfiguration (p : Plugin) : ADSMedia.configuration × Plugin :=
  let p1 := { p with configurationLock := p.configurationLock + 1 }
  let release (q : Plugin) : Plugin := { q with configurationLock := q.configurationLock - 1 }
  match p1.configuration with
  | none => ({ ApiKey := "", DefaultFromName := "" }, release p1)
  | some c => (c, release p1)

/-- The request built by `sendEmail` before it calls the HTTP client: the payload map, the
method and URL given to `http.NewRequest`, and the two `Header.Set` calls. -/
def sendEmailRequest (config : ADSMedia.configuration) (to_ subject message : String) :
    Request :=
  let payload : List (String × String) :=
    [("to", to_),
     ("subject", subject),
     ("html", "<p>" ++ message ++ "</p>"),
     ("from_name", config.DefaultFromName)]
  let req : Request :=
    { Method := "POST", URL := apiBaseURL ++ "/send", Header := [], Payload := payload }
  let req := { req with Header := HeaderSet req.Header "Authorization" ("Bearer " ++ config.ApiKey) }
  { req with Header := HeaderSet req.Header "Content-Type" "application/json" }

/-- The method `Plugin.sendEmail`. -/
def sendEmail (net : Net) (config : ADSMedia.configuration) (to_ subject message : String) :
    SendOutcome :=
  let req := sendEmailRequest config to_ subject message
  match net.Do req with
  | .error err => { calls := [req], result := .error err }
  | .ok respBody =>
    match net.Unmarshal respBody with
    | .error err => { calls := [req], result := .error err }
    | .ok result =>
      if !result.Success then
        { calls := [req], result := .error (Errorf result.Error.Message) }
      else
        { calls := [req], result := .ok result }

/-- The method `Plugin.ExecuteCommand`.

Line 71 formats the operand `result.MessageID`. The struct `SendResult` declares the fields
`Success`, `Data` and `Error` and embeds none, so it has no field and no promoted field of
that name (see `hasSelector`): the selector is not the decoded `data.message_id`, and Go
rejects it. What the operand stands for is therefore the parameter `resultMessageID`, about
which nothing is assumed. It occurs in the text of the success reply and nowhere else. -/
def ExecuteCommand (resultMessageID : SendResult → String) (net : Net) (p : Plugin)
    (args : CommandArgs) : ExecOutcome :=
  match SplitN args.Command ' ' 4 with
  | [_, to_, subject, message] =>
    let g := getConfiguration p
    let config := g.1
    if config.ApiKey = "" then
      { response := some { ResponseType := CommandResponseTypeEphemeral,
                           Text := "Error: ADSMedia API key not configured" },
        appErr := none, calls := [], plugin := g.2 }
    else
      let s := sendEmail net config to_ subject message
      match s.result with
      | .error err =>
        { response := some { ResponseType := CommandResponseTypeEphemeral,
                             Text := "Error: " ++ err },
          appErr := none, calls := s.calls, plugin := g.2 }
      | .ok result =>
        { response := some { ResponseType := CommandResponseTypeEphemeral,
                             Text := "✅ Email sent to " ++ to_ ++ "! Message ID: " ++ resultMessageID result },
          appErr := none, calls := s.calls, plugin := g.2 }
  | _ =>
    { response := some { ResponseType := CommandResponseTypeEphemeral,
                         Text := "Usage: /email [to@example.com] [subject] [message]" },
      appErr := none, calls := [], plugin := p }

/-- The text of the reply, empty when there is no reply. -/
def replyText (o : ExecOutcome) : String :=
  match o.response with
  | some r => r.Text
  | none => ""

/-! ## The words of the specification -/

/-- The white space of the specification: space, tab, line feed, vertical tab, form feed,
carriage return. -/
def isWhitespaceChar (c : Char) : Bool :=
  c == ' ' || c == '\t' || c == '\n' || c == '\x0b' || c == '\x0c' || c == '\r'

/-- The tokens of a text, in the words of the specification "tokens separated by
whitespace": the maximal runs of characters that are not white space. `cur` is the token
being read. -/
def whitespaceTokensFrom : List Char → List Char → List (List Char)
  | [], cur => if cur.isEmpty then [] else [cur]
  | c :: cs, cur =>
    if isWhitespaceChar c then
      if cur.isEmpty then whitespaceTokensFrom cs [] else cur :: whitespaceTokensFrom cs []
    else whitespaceTokensFrom cs (cur ++ [c])

/-- The whitespace-delimited tokens of a raw command. -/
def whitespaceTokens (raw : String) : List String :=
  (whitespaceTokensFrom raw.data []).map String.mk

/-- The usage text. -/
def usageText : String := "Usage: /email [to@example.com] [subject] [message]"

/-- A network that refuses every connection; its decoder is never reached. -/
def netRefused : Net :=
  { Do := fun _ => .error "dial tcp: connection refused",
    Unmarshal := fun _ => .error "unexpected end of JSON input" }

/-- A network that answers every request with `body`, decoded as `r`. -/
def netAnswer (body : String) (r : SendResult) : Net :=
  { Do := fun _ => .ok body,
    Unmarshal := fun b => if b = body then .ok r else .error "unexpected end of JSON input" }

/-- A network whose answer `body` is not JSON: the decoder fails with `e`. -/
def netGarbled (body e : String) : Net :=
  { Do := fun _ => .ok body, Unmarshal := fun _ => .error e }

/-! ## Lemmas on splitting -/

theorem cut_eq_some {sep : Char} {s a rest : List Char} (h : cut sep s = some (a, rest)) :
    s = a ++ sep :: rest ∧ sep ∉ a := by
  induction s generalizing a with
  | nil => simp [cut] at h
  | cons c cs ih =>
    unfold cut at h
    by_cases hc : c = sep
    · simp only [hc, if_true, Option.some.injEq, Prod.mk.injEq] at h
      obtain ⟨rfl, rfl⟩ := h
      simp [hc]
    · simp only [hc, if_false] at h
      cases hcut : cut sep cs with
      | none => simp [hcut] at h
      | some pr =>
        obtain ⟨a1, r1⟩ := pr
        simp only [hcut, Option.some.injEq, Prod.mk.injEq] at h
        obtain ⟨rfl, rfl⟩ := h
        obtain ⟨h1, h2⟩ := ih hcut
        refine ⟨by simp [h1], ?_⟩
        simp only [List.mem_cons, not_or]
        exact ⟨fun e => hc e.symm, h2⟩

theorem cut_eq_none {sep : Char} {s : List Char} : cut sep s = none ↔ s.count sep = 0 := by
  induction s with
  | nil => simp [cut]
  | cons c cs ih =>
    unfold cut
    by_cases hc : c = sep
    · simp [hc]
    · have hne : ¬ (c == sep) = true := by simpa using hc
      cases hcut : cut sep cs with
      | none => simp [hc, List.count_cons, hne, ih.mp hcut]
      | some pr =>
        have : cs.count sep ≠ 0 := fun h0 => by simp [ih.mpr h0] at hcut
        simp [hc, List.count_cons, hne, this]

theorem cut_count {sep : Char} {s a rest : List Char} (h : cut sep s = some (a, rest)) :
    s.count sep = rest.count sep + 1 := by
  obtain ⟨h1, h2⟩ := cut_eq_some h
  subst h1
  simp [List.count_append, List.count_cons, List.count_eq_zero_of_not_mem h2]

theorem splitN_length (sep : Char) (n : Nat) (s : List Char) :
    (splitN sep n s).length = min n (s.count sep + 1) := by
  induction n using Nat.strongRecOn generalizing s with
  | _ n ih =>
    match n with
    | 0 => simp [splitN]
    | 1 => simp [splitN]
    | k + 2 =>
      unfold splitN
      cases hcut : cut sep s with
      | none => simp [cut_eq_none.mp hcut]
      | some pr =>
        obtain ⟨a, rest⟩ := pr
        simp only [List.length_cons, ih (k + 1) (by omega) rest, cut_count hcut]
        omega

theorem SplitN_length (s : String) (n : Nat) :
    (SplitN s ' ' n).length = min n (s.data.count ' ' + 1) := by
  simp [SplitN, splitN_length]

theorem Split_length (s : String) : (Split s ' ').length = s.data.count ' ' + 1 := by
  have := List.count_le_length ' ' s.data
  simp only [Split, SplitN_length]
  omega

theorem splitN_four {s a b c d : List Char} (h : splitN ' ' 4 s = [a, b, c, d]) :
    s = a ++ ' ' :: (b ++ ' ' :: (c ++ ' ' :: d)) ∧ ' ' ∉ a ∧ ' ' ∉ b ∧ ' ' ∉ c := by
  unfold splitN at h
  cases h1 : cut ' ' s with
  | none => simp [h1] at h
  | some p1 =>
    obtain ⟨a1, r1⟩ := p1
    simp only [h1] at h
    unfold splitN at h
    cases h2 : cut ' ' r1 with
    | none => simp [h2] at h
    | some p2 =>
      obtain ⟨a2, r2⟩ := p2
      simp only [h2] at h
      unfold splitN at h
      cases h3 : cut ' ' r2 with
      | none => simp [h3] at h
      | some p3 =>
        obtain ⟨a3, r3⟩ := p3
        simp only [h3, splitN, List.cons.injEq, and_true] at h
        obtain ⟨rfl, rfl, rfl, rfl⟩ := h
        obtain ⟨e1, n1⟩ := cut_eq_some h1
        obtain ⟨e2, n2⟩ := cut_eq_some h2
        obtain ⟨e3, n3⟩ := cut_eq_some h3
        exact ⟨by rw [e1, e2, e3], n1, n2, n3⟩

/-! ## Lemmas on the command handler -/

theorem ExecuteCommand_unparsed (sel : SendResult → String) (net : Net) (p : Plugin) (raw : String)
    (h : (SplitN raw ' ' 4).length ≠ 4) :
    ExecuteCommand sel net p ⟨raw⟩ =
      { response := some { ResponseType := CommandResponseTypeEphemeral, Text := usageText },
        appErr := none, calls := [], plugin := p } := by
  unfold ExecuteCommand
  split
  · next heq => simp [heq] at h
  · rfl

theorem getConfiguration_snd (p : Plugin) : (getConfiguration p).2 = p := by
  obtain ⟨n, c⟩ := p
  cases c <;> simp [getConfiguration]

theorem getConfiguration_fst_some (p : Plugin) (c : ADSMedia.configuration)
    (h : p.configuration = some c) : (getConfiguration p).1 = c := by
  unfold getConfiguration
  simp [h]

theorem getConfiguration_fst_none (p : Plugin) (h : p.configuration = none) :
    (getConfiguration p).1 = { ApiKey := "", DefaultFromName := "" } := by
  unfold getConfiguration
  simp [h]

theorem sendEmail_calls (net : Net) (c : ADSMedia.configuration) (r s b : String) :
    (sendEmail net c r s b).calls = [sendEmailRequest c r s b] := by
  unfold sendEmail
  cases hD : net.Do (sendEmailRequest c r s b) with
  | error e => simp [hD]
  | ok body =>
    cases hU : net.Unmarshal body with
    | error e => simp [hD, hU]
    | ok res => cases hS : res.Success <;> simp [hD, hU, hS]

theorem error_ne_usage (e : String) : "Error: " ++ e ≠ usageText := by
  intro h
  have h2 := congrArg (fun t => t.data.head?) h
  have h3 : ("Error: " ++ e).data.head? = some 'E' := rfl
  have h4 : usageText.data.head? = some 'U' := rfl
  simp only [h3, h4] at h2
  exact absurd h2 (by decide)

theorem sent_ne_usage (a b : String) :
    "✅ Email sent to " ++ a ++ "! Message ID: " ++ b ≠ usageText := by
  intro h
  have h2 := congrArg (fun t => t.data.head?) h
  have h3 : ("✅ Email sent to " ++ a ++ "! Message ID: " ++ b).data.head? = some '✅' := rfl
  have h4 : usageText.data.head? = some 'U' := rfl
  simp only [h3, h4] at h2
  exact absurd h2 (by decide)

theorem ExecuteCommand_parsed (sel : SendResult → String) (net : Net) (p : Plugin) (raw t r s b : String)
    (h : SplitN raw ' ' 4 = [t, r, s, b]) :
    ExecuteCommand sel net p ⟨raw⟩ =
      if (getConfiguration p).1.ApiKey = "" then
        { response := some { ResponseType := CommandResponseTypeEphemeral,
                             Text := "Error: ADSMedia API key not configured" },
          appErr := none, calls := [], plugin := p }
      else
        match (sendEmail net (getConfiguration p).1 r s b).result with
        | .error err =>
          { response := some { ResponseType := CommandResponseTypeEphemeral,
                               Text := "Error: " ++ err },
            appErr := none, calls := [sendEmailRequest (getConfiguration p).1 r s b],
            plugin := p }
        | .ok result =>
          { response := some { ResponseType := CommandResponseTypeEphemeral,
                               Text := "✅ Email sent to " ++ r ++ "! Message ID: "
                                 ++ sel result },
            appErr := none, calls := [sendEmailRequest (getConfiguration p).1 r s b],
            plugin := p } := by
  simp only [ExecuteCommand, h, getConfiguration_snd, sendEmail_calls]

theorem exists_of_length_four {l : List String} (h : l.length = 4) :
    ∃ a b c d, l = [a, b, c, d] := by
  match l, h with
  | [a, b, c, d], _ => exact ⟨a, b, c, d, rfl⟩

/-- For a format without `%` the text of the error is the format itself. -/
theorem Errorf_of_no_percent (m : String) (h : '%' ∉ m.data) : Errorf m = m := by
  have hall : ∀ c ∈ m.data, (c != '%') = true := by
    intro c hc
    simp only [bne_iff_ne, ne_eq]
    rintro rfl
    exact h hc
  have ht : m.data.takeWhile (fun c => c != '%') = m.data := List.takeWhile_eq_self_iff.mpr hall
  have hd : m.data.dropWhile (fun c => c != '%') = [] := List.dropWhile_eq_nil_iff.mpr hall
  simp [Errorf, doPrintf, ht, hd]

/-! ## The claims -/

/-- C1, as stated, fails: the raw command "/email bob@example.com Hello " (one trailing
space) has three whitespace-delimited tokens, yet `strings.SplitN` gives four segments, the
last one empty, so the handler goes on to the configuration check and does not answer with
the usage text. -/
theorem C1_tokens_counterexample :
    whitespaceTokens "/email bob@example.com Hello " = ["/email", "bob@example.com", "Hello"] ∧
    (whitespaceTokens "/email bob@example.com Hello ").length < 4 ∧
    SplitN "/email bob@example.com Hello " ' ' 4 = ["/email", "bob@example.com", "Hello", ""] ∧
    (ExecuteCommand noMessageID netRefused ⟨0, none⟩ ⟨"/email bob@example.com Hello "⟩).response =
      some { ResponseType := "ephemeral", Text := "Error: ADSMedia API key not configured" } ∧
    replyText (ExecuteCommand noMessageID netRefused ⟨0, none⟩ ⟨"/email bob@example.com Hello "⟩) ≠
      "Usage: /email [to@example.com] [subject] [message]" := by
  decide

/-- C1, amended: for every raw command that splits at its space characters (each U+0020 is
a boundary, empty segments count) into fewer than 4 segments, and for every plugin state and
network, `ExecuteCommand` answers with the usage text, issues no request and leaves the
plugin unchanged. -/
theorem C1_usage_when_fewer_than_four_space_segments (sel : SendResult → String) (net : Net) (p : Plugin) (raw : String)
    (h : (Split raw ' ').length < 4) :
    ExecuteCommand sel net p ⟨raw⟩ =
      { response := some { ResponseType := CommandResponseTypeEphemeral,
                           Text := "Usage: /email [to@example.com] [subject] [message]" },
        appErr := none, calls := [], plugin := p } := by
  apply ExecuteCommand_unparsed
  rw [Split_length] at h
  rw [SplitN_length]
  omega

theorem C1_usage_witness :
    (Split "/email bob@example.com" ' ').length < 4 ∧
    ExecuteCommand noMessageID netRefused ⟨0, some ⟨"key", "ADSMedia"⟩⟩ ⟨"/email bob@example.com"⟩ =
      { response := some { ResponseType := CommandResponseTypeEphemeral,
                           Text := "Usage: /email [to@example.com] [subject] [message]" },
        appErr := none, calls := [], plugin := ⟨0, some ⟨"key", "ADSMedia"⟩⟩ } :=
  ⟨by decide, C1_usage_when_fewer_than_four_space_segments _ _ _ _ (by decide)⟩

/-- C2: when the raw command splits into (trigger, recipient, subject, body), joining the
four segments with single spaces gives back the raw command, so the body is the whole
remainder after the third space, and none of trigger, recipient, subject contains a space. -/
theorem C2_body_is_remainder (raw trigger recipient subject body : String)
    (h : SplitN raw ' ' 4 = [trigger, recipient, subject, body]) :
    trigger ++ " " ++ recipient ++ " " ++ subject ++ " " ++ body = raw ∧
    ' ' ∉ trigger.data ∧ ' ' ∉ recipient.data ∧ ' ' ∉ subject.data := by
  have h4 : splitN ' ' 4 raw.data = [trigger.data, recipient.data, subject.data, body.data] := by
    have := congrArg (List.map String.data) h
    simpa [SplitN, Function.comp_def] using this
  obtain ⟨e, n1, n2, n3⟩ := splitN_four h4
  refine ⟨?_, n1, n2, n3⟩
  apply String.ext
  rw [e]
  simp [String.data_append]

theorem C2_body_is_remainder_witness :
    SplitN "/email bob@example.com Hello World  this is\ta test " ' ' 4 =
      ["/email", "bob@example.com", "Hello", "World  this is\ta test "] ∧
    ("/email" ++ " " ++ "bob@example.com" ++ " " ++ "Hello" ++ " " ++ "World  this is\ta test "
        = "/email bob@example.com Hello World  this is\ta test " ∧
      ' ' ∉ "/email".data ∧ ' ' ∉ "bob@example.com".data ∧ ' ' ∉ "Hello".data) :=
  ⟨by decide, C2_body_is_remainder _ _ _ _ _ (by decide)⟩

/-- C3: when the raw command splits into 4 segments and the API key is empty, whether the
stored configuration has an empty key or no configuration was ever set, `ExecuteCommand`
hands no request to the HTTP client and answers "Error: ADSMedia API key not configured". -/
theorem C3_empty_key_no_network (sel : SendResult → String) (net : Net) (p : Plugin) (raw : String)
    (hparse : (SplitN raw ' ' 4).length = 4)
    (hkey : ∀ c, p.configuration = some c → c.ApiKey = "") :
    (ExecuteCommand sel net p ⟨raw⟩).calls = [] ∧
    (ExecuteCommand sel net p ⟨raw⟩).response =
      some { ResponseType := CommandResponseTypeEphemeral,
             Text := "Error: ADSMedia API key not configured" } ∧
    (ExecuteCommand sel net p ⟨raw⟩).appErr = none := by
  obtain ⟨t, r, s, b, h⟩ := exists_of_length_four hparse
  have hk : (getConfiguration p).1.ApiKey = "" := by
    cases hc : p.configuration with
    | none => rw [getConfiguration_fst_none p hc]
    | some c => rw [getConfiguration_fst_some p c hc]; exact hkey c hc
  rw [ExecuteCommand_parsed sel net p raw t r s b h, if_pos hk]
  exact ⟨rfl, rfl, rfl⟩

theorem C3_empty_key_no_network_witness :
    (SplitN "/email bob@example.com Hello World" ' ' 4).length = 4 ∧
    (ExecuteCommand noMessageID netRefused ⟨0, none⟩ ⟨"/email bob@example.com Hello World"⟩).calls = [] ∧
    (ExecuteCommand noMessageID netRefused ⟨0, none⟩ ⟨"/email bob@example.com Hello World"⟩).response =
      some { ResponseType := CommandResponseTypeEphemeral,
             Text := "Error: ADSMedia API key not configured" } ∧
    (ExecuteCommand noMessageID netRefused ⟨0, none⟩ ⟨"/email bob@example.com Hello World"⟩).appErr = none :=
  ⟨by decide, C3_empty_key_no_network _ _ _ _ (by decide) (by intro c hc; cases hc)⟩

/-- C4, at the failing input: the API answers success = false with the error message
"mailbox 100% full". `sendEmail` passes the message to `fmt.Errorf` as the format, so the
error text is "mailbox 100%!f(MISSING)ull", not the message, and the reply of
`ExecuteCommand` is "Error: mailbox 100%!f(MISSING)ull", not "Error: mailbox 100% full". -/
theorem C4_message_used_as_format :
    (sendEmail (netAnswer "body" ⟨false, ⟨""⟩, ⟨"mailbox 100% full"⟩⟩) ⟨"key", "ADSMedia"⟩
        "bob@example.com" "Hello" "World").result
      = .error "mailbox 100%!f(MISSING)ull" ∧
    replyText (ExecuteCommand noMessageID (netAnswer "body" ⟨false, ⟨""⟩, ⟨"mailbox 100% full"⟩⟩)
        ⟨0, some ⟨"key", "ADSMedia"⟩⟩ ⟨"/email bob@example.com Hello World"⟩)
      = "Error: mailbox 100%!f(MISSING)ull" ∧
    replyText (ExecuteCommand noMessageID (netAnswer "body" ⟨false, ⟨""⟩, ⟨"mailbox 100% full"⟩⟩)
        ⟨0, some ⟨"key", "ADSMedia"⟩⟩ ⟨"/email bob@example.com Hello World"⟩)
      ≠ "Error: " ++ "mailbox 100% full" := by
  refine ⟨by rfl, by decide, by decide⟩

/-- When the API answers success = false with a message that has no `%`, the text of the
error of `sendEmail` is the message and the reply is "Error: " followed by it. -/
theorem api_failure_reply_of_no_percent (sel : SendResult → String) (net : Net) (p : Plugin) (raw t r s b : String)
    (c : ADSMedia.configuration) (respBody : String) (res : SendResult)
    (hparse : SplitN raw ' ' 4 = [t, r, s, b])
    (hcfg : p.configuration = some c) (hkey : c.ApiKey ≠ "")
    (hdo : net.Do (sendEmailRequest c r s b) = .ok respBody)
    (hdec : net.Unmarshal respBody = .ok res) (hfail : res.Success = false)
    (hm : '%' ∉ res.Error.Message.data) :
    (sendEmail net c r s b).result = .error res.Error.Message ∧
    replyText (ExecuteCommand sel net p ⟨raw⟩) = "Error: " ++ res.Error.Message := by
  have hres : (sendEmail net c r s b).result = .error res.Error.Message := by
    simp [sendEmail, hdo, hdec, hfail, Errorf_of_no_percent _ hm]
  refine ⟨hres, ?_⟩
  rw [ExecuteCommand_parsed sel net p raw t r s b hparse, getConfiguration_fst_some p c hcfg,
    if_neg hkey, hres]
  rfl

/-- When the raw command splits into 4 segments with recipient `to_`, the stored API key is
not empty, and the answer of the API decodes with success = true, the reply text is
"✅ Email sent to " ++ to_ ++ "! Message ID: " followed by the operand of line 71. -/
theorem success_reply (sel : SendResult → String) (net : Net) (p : Plugin)
    (raw trigger to_ subject body : String)
    (c : ADSMedia.configuration) (respBody : String) (res : SendResult)
    (hparse : SplitN raw ' ' 4 = [trigger, to_, subject, body])
    (hcfg : p.configuration = some c) (hkey : c.ApiKey ≠ "")
    (hdo : net.Do (sendEmailRequest c to_ subject body) = .ok respBody)
    (hdec : net.Unmarshal respBody = .ok res) (hok : res.Success = true) :
    replyText (ExecuteCommand sel net p ⟨raw⟩) =
      "✅ Email sent to " ++ to_ ++ "! Message ID: " ++ sel res := by
  have hres : (sendEmail net c to_ subject body).result = .ok res := by
    simp [sendEmail, hdo, hdec, hok]
  rw [ExecuteCommand_parsed sel net p raw trigger to_ subject body hparse,
    getConfiguration_fst_some p c hcfg, if_neg hkey, hres]
  rfl

theorem append_left_cancel (a b c : String) (h : a ++ b = a ++ c) : b = c := by
  have h2 := congrArg String.data h
  rw [String.data_append, String.data_append] at h2
  exact String.ext (List.append_cancel_left h2)

/-- C5, at the failing input: the command "/email bob@example.com Hello World this is a
test" with a stored key and an API answer that decodes to success = true and
data.message_id = "abc123". `MessageID` is not a field of `SendResult` nor promoted into it
(it is reached only as `Data.MessageID`), so the operand `result.MessageID` of line 71 is not
the decoded message id. The reply is "✅ Email sent to bob@example.com! Message ID: "
followed by whatever that operand stands for; it is the text of the claim exactly when the
operand is "abc123", and it is not for an operand that does not read the decoded data. -/
theorem C5_message_id_operand :
    hasSelector SendResultFields "MessageID" = false ∧
    hasSelectorPath SendResultFields "Data" "MessageID" = true ∧
    (∀ sel : SendResult → String,
      replyText (ExecuteCommand sel (netAnswer "body" ⟨true, ⟨"abc123"⟩, ⟨""⟩⟩)
          ⟨0, some ⟨"key", "ADSMedia"⟩⟩ ⟨"/email bob@example.com Hello World this is a test"⟩)
        = "✅ Email sent to bob@example.com! Message ID: " ++ sel ⟨true, ⟨"abc123"⟩, ⟨""⟩⟩) ∧
    (∀ sel : SendResult → String,
      replyText (ExecuteCommand sel (netAnswer "body" ⟨true, ⟨"abc123"⟩, ⟨""⟩⟩)
          ⟨0, some ⟨"key", "ADSMedia"⟩⟩ ⟨"/email bob@example.com Hello World this is a test"⟩)
        = "✅ Email sent to bob@example.com! Message ID: abc123"
      ↔ sel ⟨true, ⟨"abc123"⟩, ⟨""⟩⟩ = "abc123") ∧
    replyText (ExecuteCommand noMessageID (netAnswer "body" ⟨true, ⟨"abc123"⟩, ⟨""⟩⟩)
        ⟨0, some ⟨"key", "ADSMedia"⟩⟩ ⟨"/email bob@example.com Hello World this is a test"⟩)
      ≠ "✅ Email sent to bob@example.com! Message ID: abc123" := by
  have hreply : ∀ sel : SendResult → String,
      replyText (ExecuteCommand sel (netAnswer "body" ⟨true, ⟨"abc123"⟩, ⟨""⟩⟩)
          ⟨0, some ⟨"key", "ADSMedia"⟩⟩ ⟨"/email bob@example.com Hello World this is a test"⟩)
        = "✅ Email sent to bob@example.com! Message ID: " ++ sel ⟨true, ⟨"abc123"⟩, ⟨""⟩⟩ := by
    intro sel
    have h := success_reply sel (netAnswer "body" ⟨true, ⟨"abc123"⟩, ⟨""⟩⟩)
      ⟨0, some ⟨"key", "ADSMedia"⟩⟩ "/email bob@example.com Hello World this is a test"
      "/email" "bob@example.com" "Hello" "World this is a test" ⟨"key", "ADSMedia"⟩ "body"
      ⟨true, ⟨"abc123"⟩, ⟨""⟩⟩ (by decide) rfl (by decide) rfl (by rfl) rfl
    rw [h]
    have hp : "✅ Email sent to " ++ "bob@example.com" ++ "! Message ID: "
        = "✅ Email sent to bob@example.com! Message ID: " := by decide
    rw [hp]
  refine ⟨by decide, by decide, hreply, ?_, by decide⟩
  intro sel
  rw [hreply sel]
  constructor
  · intro h
    have hq : "✅ Email sent to bob@example.com! Message ID: abc123"
        = "✅ Email sent to bob@example.com! Message ID: " ++ "abc123" := by decide
    rw [hq] at h
    exact append_left_cancel _ _ _ h
  · intro h
    rw [h]
    decide

/-- C6: when the raw command splits into (trigger, recipient, subject, body) and the stored
API key is not empty, `ExecuteCommand` hands exactly one request to the HTTP client: a POST
to "https://api.adsmedia.live/v1/send" with the headers Authorization = "Bearer " ++ ApiKey
and Content-Type = "application/json", whose payload has exactly the fields to = recipient,
subject = subject, html = "<p>" ++ body ++ "</p>" and from_name = DefaultFromName. -/
theorem C6_single_request (sel : SendResult → String) (net : Net) (p : Plugin) (raw trigger recipient subject body : String)
    (c : ADSMedia.configuration)
    (hparse : SplitN raw ' ' 4 = [trigger, recipient, subject, body])
    (hcfg : p.configuration = some c) (hkey : c.ApiKey ≠ "") :
    (ExecuteCommand sel net p ⟨raw⟩).calls =
      [{ Method := "POST",
         URL := "https://api.adsmedia.live/v1/send",
         Header := [("Authorization", "Bearer " ++ c.ApiKey),
                    ("Content-Type", "application/json")],
         Payload := [("to", recipient),
                     ("subject", subject),
                     ("html", "<p>" ++ body ++ "</p>"),
                     ("from_name", c.DefaultFromName)] }] := by
  have hreq : sendEmailRequest c recipient subject body =
      { Method := "POST",
        URL := "https://api.adsmedia.live/v1/send",
        Header := [("Authorization", "Bearer " ++ c.ApiKey),
                   ("Content-Type", "application/json")],
        Payload := [("to", recipient),
                    ("subject", subject),
                    ("html", "<p>" ++ body ++ "</p>"),
                    ("from_name", c.DefaultFromName)] } := by
    have k1 : CanonicalMIMEHeaderKey "Authorization" = "Authorization" := by decide
    have k2 : CanonicalMIMEHeaderKey "Content-Type" = "Content-Type" := by decide
    simp only [sendEmailRequest, HeaderSet, k1, k2, List.filter_nil, List.nil_append,
      List.filter_cons]
    have h1 : (("Authorization" : String) != "Content-Type") = true := by decide
    have h2 : apiBaseURL ++ "/send" = "https://api.adsmedia.live/v1/send" := by decide
    simp [h1, h2]
  rw [ExecuteCommand_parsed sel net p raw trigger recipient subject body hparse,
    getConfiguration_fst_some p c hcfg, if_neg hkey, hreq]
  cases (sendEmail net c recipient subject body).result <;> rfl

theorem C6_single_request_witness :
    (ExecuteCommand noMessageID netRefused ⟨0, some ⟨"key", "ADSMedia"⟩⟩
        ⟨"/email not-an-address Hello <b>World</b> & more"⟩).calls =
      [{ Method := "POST",
         URL := "https://api.adsmedia.live/v1/send",
         Header := [("Authorization", "Bearer " ++ "key"),
                    ("Content-Type", "application/json")],
         Payload := [("to", "not-an-address"),
                     ("subject", "Hello"),
                     ("html", "<p>" ++ "<b>World</b> & more" ++ "</p>"),
                     ("from_name", "ADSMedia")] }] :=
  C6_single_request noMessageID netRefused ⟨0, some ⟨"key", "ADSMedia"⟩⟩
    "/email not-an-address Hello <b>World</b> & more" "/email" "not-an-address" "Hello"
    "<b>World</b> & more" ⟨"key", "ADSMedia"⟩ (by decide) rfl (by decide)

/-- C7: when the raw command splits into 4 segments and the stored API key is not empty,
if the HTTP call fails with a transport error of text `e`, or the response body fails JSON
decoding with an error of text `e`, then `sendEmail` returns that error after handing exactly
one request to the HTTP client, `ExecuteCommand` makes exactly one request too, and its reply
text is "Error: " ++ e: it begins with "Error: " and contains `e`. -/
theorem C7_transport_or_decode_error (sel : SendResult → String) (net : Net) (p : Plugin)
    (raw trigger to_ subject body : String) (c : ADSMedia.configuration) (e : String)
    (hparse : SplitN raw ' ' 4 = [trigger, to_, subject, body])
    (hcfg : p.configuration = some c) (hkey : c.ApiKey ≠ "")
    (herr : net.Do (sendEmailRequest c to_ subject body) = .error e ∨
      ∃ respBody, net.Do (sendEmailRequest c to_ subject body) = .ok respBody ∧
        net.Unmarshal respBody = .error e) :
    (sendEmail net c to_ subject body).result = .error e ∧
    (sendEmail net c to_ subject body).calls.length = 1 ∧
    (ExecuteCommand sel net p ⟨raw⟩).calls.length = 1 ∧
    replyText (ExecuteCommand sel net p ⟨raw⟩) = "Error: " ++ e ∧
    "Error: ".data <+: (replyText (ExecuteCommand sel net p ⟨raw⟩)).data ∧
    e.data <:+: (replyText (ExecuteCommand sel net p ⟨raw⟩)).data := by
  have hres : (sendEmail net c to_ subject body).result = .error e := by
    rcases herr with hdo | ⟨respBody, hdo, hdec⟩
    · simp [sendEmail, hdo]
    · simp [sendEmail, hdo, hdec]
  have hexec : ExecuteCommand sel net p ⟨raw⟩ =
      { response := some { ResponseType := CommandResponseTypeEphemeral,
                           Text := "Error: " ++ e },
        appErr := none, calls := [sendEmailRequest c to_ subject body], plugin := p } := by
    rw [ExecuteCommand_parsed sel net p raw trigger to_ subject body hparse,
      getConfiguration_fst_some p c hcfg, if_neg hkey, hres]
  have htext : replyText (ExecuteCommand sel net p ⟨raw⟩) = "Error: " ++ e := by
    rw [hexec]
    rfl
  refine ⟨hres, by rw [sendEmail_calls]; rfl, by rw [hexec]; rfl, htext, ?_, ?_⟩
  · rw [htext, String.data_append]
    exact ⟨e.data, rfl⟩
  · rw [htext, String.data_append]
    exact ⟨"Error: ".data, [], by simp⟩

theorem C7_transport_or_decode_error_witness :
    ((sendEmail netRefused ⟨"key", "ADSMedia"⟩ "bob@example.com" "Hello" "World").result
        = .error "dial tcp: connection refused" ∧
      (sendEmail netRefused ⟨"key", "ADSMedia"⟩ "bob@example.com" "Hello" "World").calls.length
        = 1 ∧
      (ExecuteCommand noMessageID netRefused ⟨0, some ⟨"key", "ADSMedia"⟩⟩
        ⟨"/email bob@example.com Hello World"⟩).calls.length = 1 ∧
      replyText (ExecuteCommand noMessageID netRefused ⟨0, some ⟨"key", "ADSMedia"⟩⟩
        ⟨"/email bob@example.com Hello World"⟩) = "Error: " ++ "dial tcp: connection refused" ∧
      "Error: ".data <+: (replyText (ExecuteCommand noMessageID netRefused ⟨0, some ⟨"key", "ADSMedia"⟩⟩
        ⟨"/email bob@example.com Hello World"⟩)).data ∧
      "dial tcp: connection refused".data <:+:
        (replyText (ExecuteCommand noMessageID netRefused ⟨0, some ⟨"key", "ADSMedia"⟩⟩
          ⟨"/email bob@example.com Hello World"⟩)).data) ∧
    replyText (ExecuteCommand noMessageID (netGarbled "<html>502</html>" "invalid character '<'")
        ⟨0, some ⟨"key", "ADSMedia"⟩⟩ ⟨"/email bob@example.com Hello World"⟩)
      = "Error: " ++ "invalid character '<'" :=
  ⟨C7_transport_or_decode_error noMessageID netRefused ⟨0, some ⟨"key", "ADSMedia"⟩⟩
      "/email bob@example.com Hello World" "/email" "bob@example.com" "Hello" "World"
      ⟨"key", "ADSMedia"⟩ "dial tcp: connection refused" (by decide) rfl (by decide)
      (Or.inl rfl),
    (C7_transport_or_decode_error noMessageID (netGarbled "<html>502</html>" "invalid character '<'")
      ⟨0, some ⟨"key", "ADSMedia"⟩⟩ "/email bob@example.com Hello World" "/email"
      "bob@example.com" "Hello" "World" ⟨"key", "ADSMedia"⟩ "invalid character '<'"
      (by decide) rfl (by decide) (Or.inr ⟨"<html>502</html>", rfl, rfl⟩)).2.2.2.1⟩

/-- C8: for every raw command, plugin state and network, `ExecuteCommand` returns a response
that is not nil, whose `ResponseType` is ephemeral and not in-channel, together with a nil
`AppError`. -/
theorem C8_always_ephemeral_no_error (sel : SendResult → String) (net : Net) (p : Plugin) (args : CommandArgs) :
    ∃ r, (ExecuteCommand sel net p args).response = some r ∧
      r.ResponseType = CommandResponseTypeEphemeral ∧
      r.ResponseType ≠ CommandResponseTypeInChannel ∧
      (ExecuteCommand sel net p args).appErr = none := by
  have hne : CommandResponseTypeEphemeral ≠ CommandResponseTypeInChannel := by decide
  obtain ⟨raw⟩ := args
  by_cases hlen : (SplitN raw ' ' 4).length = 4
  · obtain ⟨t, r, s, b, hs⟩ := exists_of_length_four hlen
    rw [ExecuteCommand_parsed sel net p raw t r s b hs]
    split
    · exact ⟨_, rfl, rfl, hne, rfl⟩
    · split <;> exact ⟨_, rfl, rfl, hne, rfl⟩
  · rw [ExecuteCommand_unparsed sel net p raw hlen]
    exact ⟨_, rfl, rfl, hne, rfl⟩

/-- C9: `getConfiguration` returns the stored configuration when one has been set, returns
the configuration with ApiKey = "" and DefaultFromName = "" when the stored pointer is nil,
and in both cases leaves the plugin, its stored configuration included, as it was. -/
theorem C9_getConfiguration (n : Nat) (c : ADSMedia.configuration) :
    getConfiguration ⟨n, some c⟩ = (c, ⟨n, some c⟩) ∧
    getConfiguration ⟨n, none⟩ = ({ ApiKey := "", DefaultFromName := "" }, ⟨n, none⟩) := by
  simp [getConfiguration]

/-- C10: `ExecuteCommand` answers with the usage reply exactly when the raw command has
fewer than three space characters (U+0020), whatever the plugin state (so also when the API
key is empty) and whatever the network; no other character separates segments, and empty
segments between consecutive spaces are accepted. -/
theorem C10_usage_iff_fewer_than_three_spaces (sel : SendResult → String) (net : Net) (p : Plugin) (raw : String) :
    (ExecuteCommand sel net p ⟨raw⟩).response =
        some { ResponseType := CommandResponseTypeEphemeral,
               Text := "Usage: /email [to@example.com] [subject] [message]" }
      ↔ raw.data.count ' ' < 3 := by
  constructor
  · intro h
    by_contra hge
    have hlen : (SplitN raw ' ' 4).length = 4 := by
      rw [SplitN_length]
      omega
    obtain ⟨t, r, s, b, hs⟩ := exists_of_length_four hlen
    rw [ExecuteCommand_parsed sel net p raw t r s b hs] at h
    split at h
    · simp only [Option.some.injEq, CommandResponse.mk.injEq, true_and] at h
      exact absurd h (by decide)
    · split at h
      · simp only [Option.some.injEq, CommandResponse.mk.injEq, true_and] at h
        exact error_ne_usage _ h
      · simp only [Option.some.injEq, CommandResponse.mk.injEq, true_and] at h
        exact sent_ne_usage _ _ h
  · intro h
    rw [ExecuteCommand_unparsed sel net p raw (by rw [SplitN_length]; omega)]
    rfl

end ADSMedia
